import Mathlib

/-!
Verification of the fabric host-parameterized task fan-out core
(src/fabric/executor.py, src/fabric/tasks.py, src/fabric/exceptions.py)
against its specification, via a shallow embedding.
-/

namespace Fabric

/-- Python values as they occur at the host-specifier / kwargs boundary of the
fan-out core: strings, integers, booleans, None, lists and string-keyed dicts
(dicts are modelled as association lists, keys unique). -/
inductive PyVal where
  | str (s : String)
  | int (n : Int)
  | bool (b : Bool)
  | none
  | list (xs : List PyVal)
  | dict (m : List (String × PyVal))

mutual

/-- Python `repr` of a value, as used when a value is interpolated into an
f-string (strings are quoted when nested). -/
def pyRepr : PyVal → String
  | .str s => "\x27" ++ s ++ "\x27"
  | .int n => toString n
  | .bool b => if b then "True" else "False"
  | .none => "None"
  | .list xs => "[" ++ pyReprList xs ++ "]"
  | .dict m => "\x7b" ++ pyReprPairs m ++ "\x7d"

/-- Comma-separated reprs of the elements of a Python list. -/
def pyReprList : List PyVal → String
  | [] => ""
  | [x] => pyRepr x
  | x :: y :: xs => pyRepr x ++ ", " ++ pyReprList (y :: xs)

/-- Comma-separated reprs of the key/value pairs of a Python dict. -/
def pyReprPairs : List (String × PyVal) → String
  | [] => ""
  | [(k, v)] => "\x27" ++ k ++ "\x27: " ++ pyRepr v
  | (k, v) :: p :: ps => "\x27" ++ k ++ "\x27: " ++ pyRepr v ++ ", " ++ pyReprPairs (p :: ps)

end

/-- Python `str` of a value: like `repr` except a top-level string appears
without quotes; this is what an f-string interpolation produces. -/
def pyStr : PyVal → String
  | .str s => s
  | v => pyRepr v

/-- Python-level exceptions raised by the embedded code paths.  `nothingToDo`
embeds the `NothingToDo` class of src/fabric/exceptions.py; the others embed
the corresponding Python builtins. -/
inductive PyError where
  | valueError (msg : String)
  | typeError (msg : String)
  | keyError (key : String)
  | nameError (name : String)
  | nothingToDo
deriving DecidableEq

/-- A Connection Parameter Record: a Python dict of Connection init kwargs. -/
abbrev ConnParams := List (String × PyVal)

/-- Whether a host specifier passes the `isinstance(host, str)` /
`isinstance(host, dict)` checks of `Executor.normalize_hosts`. -/
def isHostSpec : PyVal → Bool
  | .str _ => true
  | .dict _ => true
  | _ => false

/-- The loop of `Executor.normalize_hosts` (src/fabric/executor.py): walks the
host list front to back carrying the accumulator `normalized`; a string is
appended as the dict containing the single pair host ↦ it, a dict is appended
unchanged, and anything else raises
`ValueError(f"Invalid host specification: \x7bhost\x7d")`. -/
def normalizeLoop (normalized : List ConnParams) : List PyVal → Except PyError (List ConnParams)
  | [] => .ok normalized
  | host :: rest =>
    match host with
    | .str s => normalizeLoop (normalized ++ [[("host", PyVal.str s)]]) rest
    | .dict m => normalizeLoop (normalized ++ [m]) rest
    | bad => .error (.valueError ("Invalid host specification: " ++ pyStr bad))

/-- `Executor.normalize_hosts` (src/fabric/executor.py lines 22-48). -/
def normalize_hosts (hosts : List PyVal) : Except PyError (List ConnParams) :=
  normalizeLoop [] hosts

/-- The per-element normalization rule as the spec states it: a string `s`
becomes the single-key record host ↦ s, a mapping passes through unchanged.
(The catch-all branch is never reached on valid specifiers.) -/
def specRecord : PyVal → ConnParams
  | .str s => [("host", PyVal.str s)]
  | .dict m => m
  | _ => []

theorem normalizeLoop_ok (hosts : List PyVal) :
    ∀ (acc : List ConnParams), (∀ x ∈ hosts, isHostSpec x = true) →
      normalizeLoop acc hosts = .ok (acc ++ hosts.map specRecord) := by
  induction hosts with
  | nil => intro acc _; simp [normalizeLoop]
  | cons x xs ih =>
    intro acc h
    have hx : isHostSpec x = true := h x (List.mem_cons_self x xs)
    have hxs : ∀ y ∈ xs, isHostSpec y = true := fun y hy => h y (List.mem_cons_of_mem x hy)
    cases x with
    | str s => rw [show normalizeLoop acc (PyVal.str s :: xs)
          = normalizeLoop (acc ++ [[("host", PyVal.str s)]]) xs from rfl,
        ih _ hxs]; simp [specRecord]
    | dict m => rw [show normalizeLoop acc (PyVal.dict m :: xs)
          = normalizeLoop (acc ++ [m]) xs from rfl, ih _ hxs]; simp [specRecord]
    | int n => simp [isHostSpec] at hx
    | bool b => simp [isHostSpec] at hx
    | none => simp [isHostSpec] at hx
    | list l => simp [isHostSpec] at hx

theorem normalizeLoop_err (hosts : List PyVal) :
    ∀ (acc : List ConnParams), (∃ x ∈ hosts, isHostSpec x = false) →
      ∃ bad, bad ∈ hosts ∧ isHostSpec bad = false ∧
        normalizeLoop acc hosts
          = .error (.valueError ("Invalid host specification: " ++ pyStr bad)) := by
  induction hosts with
  | nil => intro acc h; obtain ⟨x, hx, _⟩ := h; exact absurd hx (List.not_mem_nil x)
  | cons x xs ih =>
    intro acc h
    cases hx : isHostSpec x with
    | false =>
      refine ⟨x, List.mem_cons_self x xs, hx, ?_⟩
      cases x with
      | str s => simp [isHostSpec] at hx
      | dict m => simp [isHostSpec] at hx
      | int n => rfl
      | bool b => rfl
      | none => rfl
      | list l => rfl
    | true =>
      have hxs : ∃ y ∈ xs, isHostSpec y = false := by
        obtain ⟨y, hy, hyv⟩ := h
        rcases List.mem_cons.mp hy with h1 | h2
        · rw [h1] at hyv; rw [hx] at hyv; exact absurd hyv (by simp)
        · exact ⟨y, h2, hyv⟩
      cases x with
      | str s =>
        obtain ⟨bad, hmem, hval, heq⟩ := ih (acc ++ [[("host", PyVal.str s)]]) hxs
        exact ⟨bad, List.mem_cons_of_mem _ hmem, hval, heq⟩
      | dict m =>
        obtain ⟨bad, hmem, hval, heq⟩ := ih (acc ++ [m]) hxs
        exact ⟨bad, List.mem_cons_of_mem _ hmem, hval, heq⟩
      | int n => simp [isHostSpec] at hx
      | bool b => simp [isHostSpec] at hx
      | none => simp [isHostSpec] at hx
      | list l => simp [isHostSpec] at hx

/-- Statement-level embedding of the `normalize_hosts` loop that additionally
tracks the contents of the caller-supplied `hosts` list object as mutable
state: `seen ++ pending` is the list's contents at each loop iteration, each
iteration only reads the current element, and the `append` statements target
the local `normalized` list.  The second component of the result is the
caller-visible final contents of `hosts`. -/
def normalizeFrameLoop (normalized : List ConnParams) (seen : List PyVal) :
    List PyVal → Except PyError (List ConnParams) × List PyVal
  | [] => (.ok normalized, seen)
  | host :: rest =>
    match host with
    | .str s => normalizeFrameLoop (normalized ++ [[("host", PyVal.str s)]])
        (seen ++ [PyVal.str s]) rest
    | .dict m => normalizeFrameLoop (normalized ++ [m]) (seen ++ [PyVal.dict m]) rest
    | bad => (.error (.valueError ("Invalid host specification: " ++ pyStr bad)),
        seen ++ bad :: rest)

/-- `Executor.normalize_hosts` together with the final contents of its input list. -/
def normalizeFrame (hosts : List PyVal) : Except PyError (List ConnParams) × List PyVal :=
  normalizeFrameLoop [] [] hosts

theorem normalizeFrameLoop_eq (hosts : List PyVal) :
    ∀ (acc : List ConnParams) (seen : List PyVal),
      normalizeFrameLoop acc seen hosts = (normalizeLoop acc hosts, seen ++ hosts) := by
  induction hosts with
  | nil => intro acc seen; simp [normalizeFrameLoop, normalizeLoop]
  | cons x xs ih =>
    intro acc seen
    cases x with
    | str s =>
      have h2 := ih (acc ++ [[("host", PyVal.str s)]]) (seen ++ [PyVal.str s])
      simpa [normalizeFrameLoop, normalizeLoop] using h2
    | dict m =>
      have h2 := ih (acc ++ [m]) (seen ++ [PyVal.dict m])
      simpa [normalizeFrameLoop, normalizeLoop] using h2
    | int n => simp [normalizeFrameLoop, normalizeLoop]
    | bool b => simp [normalizeFrameLoop, normalizeLoop]
    | none => simp [normalizeFrameLoop, normalizeLoop]
    | list l => simp [normalizeFrameLoop, normalizeLoop]

/-- C1: on a host-specifier list whose elements are each a string or a mapping,
`Executor.normalize_hosts` succeeds with the elementwise image of the list
under the rule string `s` ↦ single-key record host ↦ `s`, mapping ↦ itself; in
particular the output has the same length as the input, keeps its order, and
duplicates are kept (no deduplication). -/
theorem normalize_hosts_valid (hosts : List PyVal)
    (h : hosts.all isHostSpec = true) :
    normalize_hosts hosts = .ok (hosts.map specRecord) ∧
    (hosts.map specRecord).length = hosts.length := by
  have hall : ∀ x ∈ hosts, isHostSpec x = true := by
    simpa [List.all_eq_true] using h
  refine ⟨?_, by simp⟩
  simpa using normalizeLoop_ok hosts [] hall

/-- Witness for C1 at a concrete mixed list containing a duplicate. -/
theorem normalize_hosts_valid_witness :
    normalize_hosts [PyVal.str "a", PyVal.dict [("user", PyVal.str "u")], PyVal.str "a"]
      = .ok [[("host", PyVal.str "a")], [("user", PyVal.str "u")],
             [("host", PyVal.str "a")]] :=
  (normalize_hosts_valid
    [PyVal.str "a", PyVal.dict [("user", PyVal.str "u")], PyVal.str "a"] (by rfl)).1

/-- C6: `Executor.normalize_hosts` raises
`ValueError("Invalid host specification: <element>")` naming an offending
element exactly when the list contains an element that is neither a string nor
a mapping, and raises no error otherwise; it is the normalization step itself
that raises. -/
theorem normalize_hosts_invalid (hosts : List PyVal) :
    (hosts.all isHostSpec = false →
      ∃ bad, bad ∈ hosts ∧ isHostSpec bad = false ∧
        normalize_hosts hosts
          = .error (.valueError ("Invalid host specification: " ++ pyStr bad))) ∧
    (hosts.all isHostSpec = true → ∃ out, normalize_hosts hosts = .ok out) := by
  constructor
  · intro h
    have hex : ∃ x ∈ hosts, isHostSpec x = false := by
      rcases List.all_eq_false.mp h with ⟨x, hx, hv⟩
      exact ⟨x, hx, by simpa using hv⟩
    simpa [normalize_hosts] using normalizeLoop_err hosts [] hex
  · intro h
    have hall : ∀ x ∈ hosts, isHostSpec x = true := by
      simpa [List.all_eq_true] using h
    exact ⟨hosts.map specRecord, by simpa using normalizeLoop_ok hosts [] hall⟩

/-- Witness for C6 at a list holding the integer 22. -/
theorem normalize_hosts_invalid_witness :
    ∃ bad, bad ∈ [PyVal.str "a", PyVal.int 22] ∧ isHostSpec bad = false ∧
      normalize_hosts [PyVal.str "a", PyVal.int 22]
        = .error (.valueError ("Invalid host specification: " ++ pyStr bad)) :=
  (normalize_hosts_invalid [PyVal.str "a", PyVal.int 22]).1 (by rfl)

/-- C8: `Executor.normalize_hosts` never mutates the caller-supplied list: at
the statement level the loop only reads the list, so its final contents equal
its initial contents (same length, same elements, same order), while the
returned value is exactly the pure `normalize_hosts` result. -/
theorem normalize_hosts_no_mutation (hosts : List PyVal) :
    (normalizeFrame hosts).2 = hosts ∧
    (normalizeFrame hosts).1 = normalize_hosts hosts := by
  have h := normalizeFrameLoop_eq hosts [] []
  rw [normalizeFrame, h]
  exact ⟨by simp, rfl⟩

/-- A user-defined Python function object: its name together with the
attributes assigned on it (the task decorator performs `func.hosts = hosts`). -/
structure Func where
  name : String
  attrs : List (String × PyVal)

/-- External collaborator `invoke.tasks.Task` (the generic task layer): wraps
the callable body and keeps the generic construction kwargs. -/
structure InvokeTask where
  body : Func
  kwargs : List (String × PyVal)

/-- External collaborator `invoke.tasks.Call`: a deferred invocation holding a
task reference, positional arguments and keyword arguments. -/
structure Call where
  task : InvokeTask
  args : List PyVal
  kwargs : List (String × PyVal)

/-- Modelled from the spec: the external Connection capability
(fabric/connection.py is not among the provided sources).  The core only
requires construction from a Connection Parameter Record and attribute reads,
so the model records the kwargs the instance was constructed from. -/
structure Connection where
  init_kwargs : ConnParams

/-- `fabric.tasks.ConnectionCall`: an invoke Call extended with the
`init_kwargs` record, plus the execution context assigned onto it by
`Executor.parameterize` (absent right after construction). -/
structure ConnectionCall where
  task : InvokeTask
  args : List PyVal
  kwargs : List (String × PyVal)
  init_kwargs : ConnParams
  context : Option Connection

/-- `ConnectionCall.__init__` (src/fabric/tasks.py lines 82-95): runs
`init_kwargs = kwargs.pop("init_kwargs")` with no default, so a construction
in which the keyword is absent raises `KeyError("init_kwargs")`; otherwise the
popped value becomes the `init_kwargs` attribute and the rest is forwarded to
`invoke.Call.__init__`. -/
def mkConnectionCall (task : InvokeTask) (args : List PyVal)
    (kwargs : List (String × PyVal)) (init_kwargs : Option ConnParams) :
    Except PyError ConnectionCall :=
  match init_kwargs with
  | Option.none => .error (.keyError "init_kwargs")
  | Option.some ik => .ok ⟨task, args, kwargs, ik, Option.none⟩

/-- The names bound at module scope in src/fabric/executor.py: its import
block binds `invoke`, `Call`, `Task`, `ConnectionCall`, `NothingToDo` and
`debug`, and the class statement binds `Executor`.  `Connection` is never
imported in that module. -/
def executorGlobals : List String :=
  ["invoke", "Call", "Task", "ConnectionCall", "NothingToDo", "debug", "Executor"]

/-- `Executor.parameterize` (src/fabric/executor.py lines 50-76) as written:
it constructs the ConnectionCall from the call's task, args and kwargs with
the record as `init_kwargs`, then evaluates `Connection(**connection_init_kwargs)`
to assign the call's context.  The name `Connection` is resolved against the
executor module's globals, where it is absent, so that statement raises
`NameError` before the assignment happens. -/
def parameterize (call : Call) (connection_init_kwargs : ConnParams) :
    Except PyError ConnectionCall :=
  match mkConnectionCall call.task call.args call.kwargs
      (Option.some connection_init_kwargs) with
  | .error e => .error e
  | .ok cc =>
    if executorGlobals.contains "Connection" then
      .ok { cc with context := Option.some ⟨connection_init_kwargs⟩ }
    else
      .error (.nameError "Connection")

/-- Modelled from the spec: Call Parameterization (§4.2) — what
`Executor.parameterize` computes once the missing `Connection` import is in
scope: same task reference, args and kwargs as the input Call, the record as
`init_kwargs`, and the context eagerly bound to a Connection constructed from
exactly that record. -/
def parameterizeSpec (call : Call) (k : ConnParams) : ConnectionCall :=
  ⟨call.task, call.args, call.kwargs, k, Option.some ⟨k⟩⟩

/-- Modelled from the spec: `RESOLVE_HOSTS` (§4.3) — the effective host list
is the CLI override list if supplied and non-empty, else the Task Descriptor's
static host list, else the absent sentinel.  (The Executor method implementing
this resolution is not among the provided sources.) -/
def resolve_hosts (cliHosts taskHosts : Option (List PyVal)) : Option (List PyVal) :=
  match cliHosts with
  | Option.some l => if l.isEmpty then taskHosts else Option.some l
  | Option.none => taskHosts

/-- The dispatch decision for one task invocation: either a single vanilla
Call handed to the generic engine unchanged, or one ConnectionCall per
normalized host record. -/
inductive Dispatch where
  | single (c : Call)
  | parameterized (cs : List ConnectionCall)

/-- Modelled from the spec: the Fan-Out Executor's per-call decision (§4.3) —
resolve the effective host list; with no list resolved delegate the vanilla
Call unchanged; with a resolved list, normalize it (per the source
`normalize_hosts`), signal `NothingToDo` when the normalized sequence is
empty, and otherwise emit one parameterized ConnectionCall per record in
order.  (The Executor method implementing this decision is not among the
provided sources.) -/
def expand_call (cliHosts taskHosts : Option (List PyVal)) (call : Call) :
    Except PyError Dispatch :=
  match resolve_hosts cliHosts taskHosts with
  | Option.none => .ok (.single call)
  | Option.some hosts =>
    match normalize_hosts hosts with
    | .error e => .error e
    | .ok records =>
      if records.isEmpty then .error .nothingToDo
      else .ok (.parameterized (records.map (parameterizeSpec call)))

/-- C2 — code bug: every invocation of `Executor.parameterize` raises
`NameError` at `Connection(**connection_init_kwargs)`, because
src/fabric/executor.py never imports `Connection`; the documented
ConnectionCall (with its context bound) is never returned. -/
theorem parameterize_raises_nameError (call : Call) (k : ConnParams) :
    parameterize call k = .error (.nameError "Connection") := rfl

/-- C3: the CLI override host list, when supplied and non-empty, is the
effective host list verbatim, regardless of the task-level host list; when the
override is absent, the task's static host list applies. -/
theorem cli_hosts_precedence (cli : List PyVal) (taskHosts : Option (List PyVal))
    (h : cli.isEmpty = false) :
    resolve_hosts (Option.some cli) taskHosts = Option.some cli ∧
    resolve_hosts Option.none taskHosts = taskHosts := by
  constructor
  · rw [resolve_hosts, h]; rfl
  · rfl

/-- Witness for C3: the spec's precedence test — task declares x, CLI
supplies y, the effective list is y. -/
theorem cli_hosts_precedence_witness :
    resolve_hosts (Option.some [PyVal.str "y"]) (Option.some [PyVal.str "x"])
      = Option.some [PyVal.str "y"] :=
  (cli_hosts_precedence [PyVal.str "y"] (Option.some [PyVal.str "x"]) (by rfl)).1

/-- C4: when an effective host list was resolved but normalizes to the empty
sequence, the Executor signals `NothingToDo` and dispatches no
ConnectionCalls; when instead no host list was resolved at all, the outcome is
the distinct single-Call dispatch, never `NothingToDo`. -/
theorem empty_hosts_nothingToDo (cliHosts taskHosts : Option (List PyVal))
    (call : Call) (hosts : List PyVal)
    (h1 : resolve_hosts cliHosts taskHosts = Option.some hosts)
    (h2 : normalize_hosts hosts = .ok []) :
    expand_call cliHosts taskHosts call = .error .nothingToDo ∧
    ∀ cli2 task2, resolve_hosts cli2 task2 = Option.none →
      expand_call cli2 task2 call = .ok (.single call) := by
  constructor
  · rw [expand_call, h1]; simp [h2]
  · intro cli2 task2 hnone
    rw [expand_call, hnone]

/-- Witness for C4: CLI override absent, an (explicitly attached) empty task
host list resolves to the empty list, which normalizes to the empty sequence. -/
theorem empty_hosts_nothingToDo_witness :
    expand_call Option.none (Option.some [])
      ⟨⟨⟨"deploy", []⟩, []⟩, [], []⟩ = .error .nothingToDo :=
  (empty_hosts_nothingToDo Option.none (Option.some [])
    ⟨⟨⟨"deploy", []⟩, []⟩, [], []⟩ [] (by rfl) (by rfl)).1

/-- C5: with neither a CLI override host list nor a task-level host list
present, the Executor dispatches exactly one vanilla Call — the original Call
itself, which carries no `init_kwargs` field at all — delegating unchanged to
the generic task engine. -/
theorem no_hosts_single_call (call : Call) :
    expand_call Option.none Option.none call = .ok (.single call) := rfl

/-- C9: constructing a `ConnectionCall` without the `init_kwargs` keyword
raises `KeyError("init_kwargs")` despite the docstring's claimed default of
None; with the keyword supplied, construction succeeds and the attribute holds
exactly the supplied record. -/
theorem connectionCall_requires_init_kwargs (t : InvokeTask) (a : List PyVal)
    (k : List (String × PyVal)) :
    mkConnectionCall t a k Option.none = .error (.keyError "init_kwargs") ∧
    ∀ ik, ∃ cc, mkConnectionCall t a k (Option.some ik) = .ok cc ∧
      cc.init_kwargs = ik :=
  ⟨rfl, fun ik => ⟨⟨t, a, k, ik, Option.none⟩, rfl, rfl⟩⟩

/-- Python objects flowing through the decoration site: user functions, invoke
Task objects, the inner closure returned by `invoke.task(...)`, invoke Context
instances, and the value produced by running a task body. -/
inductive PyObj where
  | function (f : Func)
  | task (t : InvokeTask)
  | taskDecorator (kwargs : List (String × PyVal))
  | context
  | bodyResult (f : Func)

/-- Python truthiness (`if hosts:`) for the values used here. -/
def pyTruthy : PyVal → Bool
  | .str s => s != ""
  | .int n => n != 0
  | .bool b => b
  | .none => false
  | .list xs => !xs.isEmpty
  | .dict m => !m.isEmpty

/-- `kwargs.pop(key, None)`: the value under the key (if any) together with
the remaining kwargs dict. -/
def kwPop (kwargs : List (String × PyVal)) (key : String) :
    Option PyVal × List (String × PyVal) :=
  match kwargs.lookup key with
  | Option.none => (Option.none, kwargs)
  | Option.some v => (Option.some v, kwargs.filter (fun p => p.1 != key))

/-- `func.hosts = hosts`: attribute assignment on a function object
(overwriting any previous binding of the attribute). -/
def setAttr (f : Func) (key : String) (v : PyVal) : Func :=
  ⟨f.name, f.attrs.filter (fun p => p.1 != key) ++ [(key, v)]⟩

/-- External collaborator `invoke.tasks.task`: called with a single callable
positional argument it returns the Task wrapping it; called with no positional
arguments it returns its inner decorator closure.  (Pre-task positional
shapes are not exercised by these claims.) -/
def invoke_task (args : List PyObj) (kwargs : List (String × PyVal)) :
    Except PyError PyObj :=
  match args with
  | [PyObj.function f] => .ok (PyObj.task ⟨f, kwargs⟩)
  | [] => .ok (PyObj.taskDecorator kwargs)
  | _ => .error (.typeError "unsupported positional arguments")

/-- Applying a Python object to one argument: the invoke.task inner closure
wraps a callable into a Task; `invoke.tasks.Task.__call__` guards that its
first argument is a Context and raises TypeError otherwise (the got-type
suffix of invoke's message is elided). -/
def pyApply (f : PyObj) (x : PyObj) : Except PyError PyObj :=
  match f with
  | PyObj.taskDecorator kw =>
    match x with
    | PyObj.function g => .ok (PyObj.task ⟨g, kw⟩)
    | _ => .error (.typeError "inner expected a callable")
  | PyObj.task t =>
    match x with
    | PyObj.context => .ok (PyObj.bodyResult t.body)
    | _ => .error (.typeError "Task expected a Context as its first arg!")
  | _ => .error (.typeError "object is not callable")

/-- The inner `wrapper(func)` of `fabric.tasks.task` (src/fabric/tasks.py),
for the case where the captured positional `args` do not alias `func` (the
parenthesised decoration form, where `args` was fixed before the decorated
function existed): set `func.hosts` when the popped hosts value is truthy,
then return `invoke.task(*args, **kwargs)(func)`. -/
def fabricWrapper (hostsVal : PyVal) (args : List PyObj)
    (rest : List (String × PyVal)) (func : Func) : Except PyError PyObj :=
  let func2 := if pyTruthy hostsVal then setAttr func "hosts" hostsVal else func
  match invoke_task args rest with
  | .error e => .error e
  | .ok t => pyApply t (PyObj.function func2)

/-- The inner `wrapper(args[0])` of `fabric.tasks.task` in the bare branch,
where `func` IS `args[0]` (the same object), so the attribute update (if any)
is visible through both references. -/
def fabricWrapperBare (hostsVal : PyVal) (rest : List (String × PyVal))
    (func : Func) : Except PyError PyObj :=
  let func2 := if pyTruthy hostsVal then setAttr func "hosts" hostsVal else func
  match invoke_task [PyObj.function func2] rest with
  | .error e => .error e
  | .ok t => pyApply t (PyObj.function func2)

/-- The result of evaluating `fabric.tasks.task(*args, **kwargs)`: in the bare
form the wrapper is applied to the decorated function immediately and its
result (or the exception it raises) is the decoration result; otherwise the
wrapper closure is returned, to be applied to the function afterwards. -/
inductive TaskDecoration where
  | value (r : Except PyError PyObj)
  | deco (hostsVal : PyVal) (args : List PyObj) (rest : List (String × PyVal))

/-- `fabric.tasks.task` (src/fabric/tasks.py lines 19-75): pops `hosts` from
the kwargs, then either applies the wrapper immediately (single callable
positional argument — here a function; bare decoration of other callables is
not exercised) or returns the wrapper. -/
def fabric_task (args : List PyObj) (kwargs : List (String × PyVal)) :
    TaskDecoration :=
  let popped := kwPop kwargs "hosts"
  let hostsVal := popped.1.getD PyVal.none
  let rest := popped.2
  match args with
  | [PyObj.function f] => .value (fabricWrapperBare hostsVal rest f)
  | _ => .deco hostsVal args rest

/-- Applying the result of `fabric.tasks.task(...)` to the decorated function:
the returned wrapper runs on the function; a value produced by the bare form
is itself applied to the function (never exercised on the decorator paths). -/
def applyDecoration (d : TaskDecoration) (f : Func) : Except PyError PyObj :=
  match d with
  | .value (.error e) => .error e
  | .value (.ok o) => pyApply o (PyObj.function f)
  | .deco hostsVal args rest => fabricWrapper hostsVal args rest f

theorem filter_ne_of_lookup_none (kw : List (String × PyVal)) (key : String)
    (h : kw.lookup key = Option.none) :
    kw.filter (fun p => p.1 != key) = kw := by
  induction kw with
  | nil => rfl
  | cons p ps ih =>
    obtain ⟨k, v⟩ := p
    cases hp : key == k with
    | true =>
      rw [List.lookup, hp] at h
      simp at h
    | false =>
      rw [List.lookup, hp] at h
      simp only at h
      have hne : k ≠ key := by
        intro he
        subst he
        simp at hp
      have hkk : (k != key) = true := by simp [bne_iff_ne, hne]
      simp [List.filter, hkk, ih h]

/-- C7 — code bug: the bare decoration form `@task` applied to a function
raises TypeError at decoration time, because the wrapper evaluates
`invoke.task(*args, **kwargs)(func)` with the function itself already among
the positional args — `invoke.task(func)` is a Task, and calling it with the
function trips the Context guard of `Task.__call__`.  The parenthesised form
`@task()` on the same function instead yields the wrapped Task, so the two
forms are not equivalent. -/
theorem task_bare_vs_parens :
    fabric_task [PyObj.function ⟨"mytask", []⟩] []
      = .value (.error (.typeError "Task expected a Context as its first arg!")) ∧
    applyDecoration (fabric_task [] []) ⟨"mytask", []⟩
      = .ok (PyObj.task ⟨⟨"mytask", []⟩, []⟩) :=
  ⟨rfl, rfl⟩

/-- C10: decorating with an explicitly empty host list (`hosts=[]`) attaches
no host metadata — the attachment is guarded by the list's truthiness — so the
decoration result is identical to the one obtained with no `hosts` keyword at
all, and the resulting task's body carries no `hosts` attribute. -/
theorem task_empty_hosts_no_metadata (f : Func) (kw : List (String × PyVal))
    (hkw : kw.lookup "hosts" = Option.none)
    (hf : f.attrs.lookup "hosts" = Option.none) :
    applyDecoration (fabric_task [] (("hosts", PyVal.list []) :: kw)) f
      = applyDecoration (fabric_task [] kw) f ∧
    ∀ t, applyDecoration (fabric_task [] (("hosts", PyVal.list []) :: kw)) f
        = .ok (PyObj.task t) → t.body.attrs.lookup "hosts" = Option.none := by
  have hfilter := filter_ne_of_lookup_none kw "hosts" hkw
  have hL : applyDecoration (fabric_task [] (("hosts", PyVal.list []) :: kw)) f
      = .ok (PyObj.task ⟨f, kw⟩) := by
    simp [fabric_task, kwPop, List.lookup, hfilter, applyDecoration, fabricWrapper,
      pyTruthy, invoke_task, pyApply]
  have hR : applyDecoration (fabric_task [] kw) f = .ok (PyObj.task ⟨f, kw⟩) := by
    simp [fabric_task, kwPop, hkw, applyDecoration, fabricWrapper, pyTruthy,
      invoke_task, pyApply]
  refine ⟨hL.trans hR.symm, ?_⟩
  intro t ht
  rw [hL] at ht
  injection ht with h1
  injection h1 with h2
  rw [← h2]
  exact hf

/-- Witness for C10 at a concrete function and empty remaining kwargs. -/
theorem task_empty_hosts_no_metadata_witness :
    applyDecoration (fabric_task [] [("hosts", PyVal.list [])]) ⟨"deploy", []⟩
      = applyDecoration (fabric_task [] []) ⟨"deploy", []⟩ :=
  (task_empty_hosts_no_metadata ⟨"deploy", []⟩ [] (by rfl) (by rfl)).1

end Fabric
